import Mathlib

/-!
Verification of the mcPeek session protocol engine and OAuth lifecycle
manager against their natural-language specification.

The definitions below are a shallow embedding of the two core source
files: the SSE session client (class SSEMCPClient) and the OAuth 2.1
client (class MCPOAuthClient).  JavaScript strings are modelled as Lean
strings (lists of characters where character-level operations occur),
JavaScript Map objects as association lists, fetch outcomes as explicit
sum types, and thrown exceptions as Except values.
-/

namespace MCPeek

namespace SSE

/-- A tool descriptor, as stored in the catalog from a tools/list
response.  Only the fields the client reads are modelled. -/
structure Tool where
  name : String
  description : Option String
  deriving Repr, DecidableEq

/-- The value found at result.tools in an incoming message: absent, a
JSON array (the only shape Array.isArray accepts), or a non-array
value such as an object. -/
inductive ToolsField where
  | absent
  | arrayVal (ts : List Tool)
  | objectVal
  deriving Repr, DecidableEq

/-- The value found at message.result.  capabilities records whether a
truthy capabilities member is present. -/
structure ResultVal where
  capabilities : Bool
  tools : ToolsField
  deriving Repr, DecidableEq

/-- An incoming JSON-RPC message as inspected by handleMCPMessage. -/
structure InMessage where
  id : Option Nat
  result : Option ResultVal
  error : Option String
  deriving Repr, DecidableEq

/-- An outgoing JSON-RPC message: the fields the claims inspect. -/
structure OutMessage where
  id : Option Nat
  method : String
  deriving Repr, DecidableEq

/-- JavaScript truthiness of a numeric id field: present and nonzero. -/
def idTruthy : Option Nat → Bool
  | some n => n != 0
  | none => false

/-- Association-list lookup, modelling Map.get. -/
def mapGet (k : Nat) (l : List (Nat × Nat)) : Option Nat :=
  (l.find? (fun p => p.1 == k)).map (fun p => p.2)

/-- Association-list membership, modelling Map.has. -/
def mapHas (k : Nat) (l : List (Nat × Nat)) : Bool :=
  (mapGet k l).isSome

/-- Association-list removal, modelling Map.delete. -/
def mapDelete (k : Nat) (l : List (Nat × Nat)) : List (Nat × Nat) :=
  l.filter (fun p => p.1 != k)

/-- The mutable state of one SSEMCPClient instance: the fields set in
the constructor together with sessionId and serverInfo, which are
created during session initialization.  onMessageSet records whether an
onMessage observer callback is installed. -/
structure SSEState where
  connected : Bool
  tools : List Tool
  messageId : Nat
  pendingRequests : List (Nat × Nat)
  sessionId : Option String
  serverInfo : Option ResultVal
  onMessageSet : Bool
  deriving Repr, DecidableEq

/-- The constructor: connected false, empty catalog, messageId 1, no
pending requests, no session id yet. -/
def initState (hasObserver : Bool) : SSEState :=
  { connected := false
    tools := []
    messageId := 1
    pendingRequests := []
    sessionId := none
    serverInfo := none
    onMessageSet := hasObserver }

/-- getNextId: returns the current counter and post-increments it. -/
def getNextId (s : SSEState) : Nat × SSEState :=
  (s.messageId, { s with messageId := s.messageId + 1 })

/-- The request body sent by initializeSession.  The id is the literal
1 written in the source, not a counter-issued value; the counter is
not touched. -/
def initRequest : OutMessage :=
  { id := some 1, method := "initialize" }

/-- State effect of a successful initializeSession: a session id is
generated (its random value is a parameter) and, when the response text
is an event frame, serverInfo is set from the data line.  The message
counter is not touched. -/
def initSessionState (s : SSEState) (sid : String) (info : Option ResultVal) : SSEState :=
  { s with sessionId := some sid, serverInfo := info }

/-- listTools: aborts sending when no session id exists; otherwise
allocates the next counter id and sends a tools/list request. -/
def listToolsSend (s : SSEState) : SSEState × List OutMessage :=
  match s.sessionId with
  | none => (s, [])
  | some _ =>
    let (i, s') := getNextId s
    (s', [{ id := some i, method := "tools/list" }])

/-- callTool: allocates the next counter id, registers a pending
request when a callback is supplied (the callback is modelled by a
numeric token), and sends a tools/call request. -/
def callToolSend (s : SSEState) (callback : Option Nat) : SSEState × OutMessage :=
  let (i, s') := getNextId s
  let s'' := match callback with
    | some cb => { s' with pendingRequests := (i, cb) :: s'.pendingRequests }
    | none => s'
  (s'', { id := some i, method := "tools/call" })

/-- Which of the dispatch blocks of handleMCPMessage fired for one
incoming message. -/
structure DispatchLog where
  observerNotified : Bool
  initFlowFired : Bool
  toolsFlowFired : Bool
  pendingResolved : Bool
  deriving Repr, DecidableEq

/-- Condition of the initialize-response block: the id is truthy and
the result carries a truthy capabilities member. -/
def initFlowCond (m : InMessage) : Bool :=
  idTruthy m.id && (match m.result with
    | some r => r.capabilities
    | none => false)

/-- Condition of the tools-list block: the id is truthy and
result.tools passes the Array.isArray test. -/
def toolsFlowCond (m : InMessage) : Bool :=
  idTruthy m.id && (match m.result with
    | some r => (match r.tools with | .arrayVal _ => true | _ => false)
    | none => false)

/-- Condition of the pending-call block, evaluated against a pending
map: the id is truthy and the map holds it. -/
def pendingCond (pend : List (Nat × Nat)) (m : InMessage) : Bool :=
  idTruthy m.id && (match m.id with
    | some i => mapHas i pend
    | none => false)

/-- The tools-list block of handleMCPMessage: when its condition
holds, the catalog is replaced by the received array; the other state
fields are untouched. -/
def applyToolsUpdate (s : SSEState) (m : InMessage) : SSEState :=
  if toolsFlowCond m then
    (match m.result with
      | some r => (match r.tools with
        | .arrayVal ts => { s with tools := ts }
        | _ => s)
      | none => s)
  else s

/-- The pending-call block of handleMCPMessage: when its condition
holds, the matching pending record is removed; the boolean reports
whether the block fired. -/
def applyPendingRemoval (s : SSEState) (m : InMessage) : SSEState × Bool :=
  let pending := pendingCond s.pendingRequests m
  (if pending then
     (match m.id with
       | some i => { s with pendingRequests := mapDelete i s.pendingRequests }
       | none => s)
   else s, pending)

/-- handleMCPMessage: the observer is notified first whenever it is
installed; then the initialize-response block triggers listTools; then
the tools-list block stores the catalog; then the pending block
removes the pending record.  The blocks are independent if-statements
in the source, not an if/else-if chain. -/
def handleMCPMessage (s : SSEState) (m : InMessage) :
    SSEState × List OutMessage × DispatchLog :=
  let observerNotified := s.onMessageSet
  let step1 := if initFlowCond m then listToolsSend s else (s, [])
  let s2 := applyToolsUpdate step1.1 m
  let pr := applyPendingRemoval s2 m
  (pr.1, step1.2, { observerNotified := observerNotified
                    initFlowFired := initFlowCond m
                    toolsFlowFired := toolsFlowCond m
                    pendingResolved := pr.2 })

/-- Outgoing-message trace of a successful connect flow: the
initialize request is posted, the session id is generated, and the
initialize response (arriving over the event stream) is dispatched
through handleMCPMessage, which triggers the tools/list request. -/
def connectOutgoing (hasObserver : Bool) (sid : String)
    (info : Option ResultVal) (initResp : InMessage) : List OutMessage :=
  let s1 := initSessionState (initState hasObserver) sid info
  initRequest :: (handleMCPMessage s1 initResp).2.1

end SSE

namespace Codec

/-- Boolean test that pat begins the given character list, modelling
String.startsWith on JavaScript strings. -/
def leadsWith : List Char → List Char → Bool
  | [], _ => true
  | _ :: _, [] => false
  | a :: as, b :: bs => a == b && leadsWith as bs

/-- Boolean substring containment, modelling String.includes. -/
def containsSeq (pat : List Char) : List Char → Bool
  | [] => leadsWith pat []
  | c :: rest => leadsWith pat (c :: rest) || containsSeq pat rest

/-- Split a character list at every occurrence of the separator,
modelling String.split with a one-character separator. -/
def splitOnChar (c : Char) : List Char → List (List Char)
  | [] => [[]]
  | a :: as =>
    match splitOnChar c as with
    | [] => [[]]
    | l :: ls => if a == c then [] :: l :: ls else (a :: l) :: ls

/-- The characters of the data-line marker checked by startsWith. -/
def dataMarker : List Char := "data: ".toList

/-- The characters of the frame marker checked by includes. -/
def eventMessageMarker : List Char := "event: message".toList

/-- Extraction of the framed JSON payload as performed in both
initializeSession and listTools: only when the body contains the text
of an event-message line are the lines scanned, and then the first
line starting with the data marker has its first six characters
removed to give the JSON payload. -/
def extractFramedPayload (text : List Char) : Option (List Char) :=
  if containsSeq eventMessageMarker text then
    match (splitOnChar '\n' text).find? (fun l => leadsWith dataMarker l) with
    | some l => some (l.drop 6)
    | none => none
  else none

/-- Direct-body decoding in sendMessage parses the whole body, so the
payload handed to the JSON parser is the body itself. -/
def directPayload (text : List Char) : List Char := text

end Codec

namespace OAuth

/-- Authorization-server metadata as inspected by
discoverAuthorizationServer: the endpoints and the supported proof-key
methods list, which may be absent altogether. -/
structure AuthServerMetadata where
  authorizationEndpoint : String
  tokenEndpoint : String
  registrationEndpoint : Option String
  codeChallengeMethodsSupported : Option (List String)
  deriving Repr, DecidableEq

/-- The S256 validation test written in the source: the list must be
present and must contain the literal S256. -/
def supportsS256 (md : AuthServerMetadata) : Bool :=
  match md.codeChallengeMethodsSupported with
  | none => false
  | some ms => ms.contains "S256"

/-- Outcome of fetching one well-known metadata location. -/
inductive ProbeOutcome where
  | fetchError
  | notOk
  | ok (md : AuthServerMetadata)
  deriving Repr, DecidableEq

/-- discoverAuthorizationServer over the ordered probe list.  Each
iteration runs inside a try/catch: a fetch error is caught and logged,
a non-ok response falls through silently, and — decisive for the PKCE
gate — the S256-rejection throw raised inside the try block is caught
by the very same catch, so the loop continues to the next location.
Only when every location is exhausted does the generic discovery
failure propagate. -/
def discoverAuthServer : List ProbeOutcome → Except String AuthServerMetadata
  | [] => .error "Failed to discover authorization server metadata"
  | p :: rest =>
    match p with
    | .ok md =>
      if supportsS256 md then .ok md
      else discoverAuthServer rest
    | _ => discoverAuthServer rest

/-- How many well-known locations the loop actually probes before
terminating. -/
def probesAttempted : List ProbeOutcome → Nat
  | [] => 0
  | p :: rest =>
    match p with
    | .ok md => if supportsS256 md then 1 else 1 + probesAttempted rest
    | _ => 1 + probesAttempted rest

/-- The ephemeral sessionStorage entries manipulated by preparePKCE and
exchangeCodeForToken. -/
structure EphemeralStore where
  oauthCodeVerifier : Option String
  oauthState : Option String
  deriving Repr, DecidableEq

/-- A successful token-endpoint response body. -/
structure TokenResponse where
  accessToken : String
  refreshToken : Option String
  scope : Option String
  expiresIn : Option Nat
  deriving Repr, DecidableEq

/-- Outcome of a token-endpoint fetch: a success body, or a non-ok
response whose JSON error body carries error and error_description. -/
inductive TokenFetchOutcome where
  | ok (tr : TokenResponse)
  | notOk (err : String) (desc : String)
  deriving Repr, DecidableEq

/-- The credential fields of one MCPOAuthClient instance. -/
structure TokenState where
  accessToken : Option String
  refreshToken : Option String
  tokenExpiresAt : Option Nat
  scopes : Option String
  deriving Repr, DecidableEq

/-- JavaScript truthiness of the expires_in field: present and
nonzero. -/
def expiresInTruthy : Option Nat → Bool
  | some e => e != 0
  | none => false

/-- exchangeCodeForToken, after the fetch has completed.  A non-ok
response throws before the removal lines run, so the ephemeral store
is returned untouched; a success stores the tokens, computes the
expiry instant when a lifetime is issued, and only then removes the
verifier and state entries. -/
def exchangeCodeForToken (st : TokenState) (store : EphemeralStore)
    (now : Nat) (resp : TokenFetchOutcome) :
    Except String TokenState × EphemeralStore :=
  match resp with
  | .notOk err desc =>
    (.error ("Token exchange failed: " ++ err ++ " - " ++ desc), store)
  | .ok tr =>
    let st' : TokenState :=
      { accessToken := some tr.accessToken
        refreshToken := tr.refreshToken
        scopes := tr.scope
        tokenExpiresAt :=
          if expiresInTruthy tr.expiresIn then
            some (now + tr.expiresIn.getD 0 * 1000)
          else st.tokenExpiresAt }
    (.ok st', { oauthCodeVerifier := none, oauthState := none })

/-- refreshAccessToken.  Missing refresh token throws before any
network call; an invalid_grant failure clears every credential field;
any other failure throws leaving the state unchanged; success replaces
the access token, rotates the refresh token only when a new one is
issued, and recomputes the expiry when a lifetime is issued.  The
boolean records whether the network round trip happened. -/
def refreshAccessToken (st : TokenState) (now : Nat)
    (resp : TokenFetchOutcome) : Except String TokenState × Bool :=
  match st.refreshToken with
  | none => (.error "No refresh token available. Re-authorization required.", false)
  | some _ =>
    match resp with
    | .notOk err desc =>
      if err = "invalid_grant" then
        (.error "Refresh token invalid. Re-authorization required.", true)
      else
        (.error ("Token refresh failed: " ++ err ++ " - " ++ desc), true)
    | .ok tr =>
      let st' : TokenState :=
        { accessToken := some tr.accessToken
          refreshToken := match tr.refreshToken with
            | some r => some r
            | none => st.refreshToken
          scopes := tr.scope
          tokenExpiresAt :=
            if expiresInTruthy tr.expiresIn then
              some (now + tr.expiresIn.getD 0 * 1000)
            else st.tokenExpiresAt }
      (.ok st', true)

/-- What loadTokens can recover from the two storage areas. -/
structure StoredCredentials where
  sessionAccessToken : Option String
  sessionExpiresAt : Option Nat
  localRefreshToken : Option String
  localScopes : Option String
  deriving Repr, DecidableEq

/-- loadTokens: the sessionStorage entry supplies the access token and
expiry, the localStorage entry supplies the refresh token and
scopes. -/
def loadTokens (st : TokenState) (stored : StoredCredentials) : TokenState :=
  let st1 := match stored.sessionAccessToken with
    | some a => { st with accessToken := some a, tokenExpiresAt := stored.sessionExpiresAt }
    | none => st
  match stored.localRefreshToken with
  | some r => { st1 with refreshToken := some r, scopes := stored.localScopes }
  | none => st1

/-- The refresh trigger test written in getAccessToken: the stored
expiry is truthy and the current time has reached expiry minus sixty
seconds. -/
def refreshDue (st : TokenState) (now : Nat) : Bool :=
  match st.tokenExpiresAt with
  | some e => e != 0 && now ≥ e - 60000
  | none => false

/-- Result of getAccessToken: the returned token or the thrown error,
the final credential state, and whether a refresh was attempted. -/
structure GetTokenResult where
  result : Except String TokenState
  refreshAttempted : Bool
  deriving Repr

/-- The body of getAccessToken after the optional load: a still
missing token throws without any refresh attempt; otherwise a refresh
runs exactly when refreshDue holds, its failure propagating, and the
(possibly refreshed) state is returned. -/
def getAccessTokenCore (st1 : TokenState) (now : Nat)
    (refreshResp : TokenFetchOutcome) : GetTokenResult :=
  match st1.accessToken with
  | none => { result := .error "No access token. Authorization required."
              refreshAttempted := false }
  | some _ =>
    if refreshDue st1 now then
      match refreshAccessToken st1 now refreshResp with
      | (.ok st2, _) => { result := .ok st2, refreshAttempted := true }
      | (.error e, _) => { result := .error e, refreshAttempted := true }
    else
      { result := .ok st1, refreshAttempted := false }

/-- getAccessToken: when no access token is held, loadTokens is tried
first, then the core body runs on the resulting state. -/
def getAccessToken (st : TokenState) (stored : StoredCredentials)
    (now : Nat) (refreshResp : TokenFetchOutcome) : GetTokenResult :=
  getAccessTokenCore (if st.accessToken = none then loadTokens st stored else st)
    now refreshResp

/-- First-occurrence deduplication, modelling iteration order of a
JavaScript Set built from a spread array. -/
def dedupFirst (seen : List String) : List String → List String
  | [] => []
  | a :: as =>
    if a ∈ seen then dedupFirst seen as
    else a :: dedupFirst (a :: seen) as

/-- Scope splitting as done with String.split on a space. -/
def splitScopes (s : String) : List String := s.splitOn " "

/-- Scope joining as done with Array.join on a space. -/
def joinScopes (l : List String) : String := String.intercalate " " l

/-- The scope list a step-up re-authorization requests: the existing
granted scopes (empty when none are held) followed by the newly
required ones, first occurrences kept. -/
def stepUpScopeList (scopes : Option String) (required : String) : List String :=
  let existing := match scopes with
    | some s => splitScopes s
    | none => []
  dedupFirst [] (existing ++ splitScopes required)

/-- The step-up bookkeeping fields set in the constructor. -/
structure StepUpState where
  scopes : Option String
  stepUpRetryCount : Nat
  maxStepUpRetries : Nat
  deriving Repr, DecidableEq

/-- Outcome of handleStepUpAuthorization before the re-authorization
network round trip: either the retries-exceeded throw, or the
incremented counter together with the combined scope string handed to
authorize.  authorizeInvoked records whether the full authorization
cycle (a network round trip) is entered. -/
structure StepUpOutcome where
  result : Except String String
  newCount : Nat
  authorizeInvoked : Bool
  deriving Repr

/-- handleStepUpAuthorization: the retry bound is checked first and a
count at the bound throws immediately, before any network request;
otherwise the counter is incremented and authorize is re-entered with
the union of granted and required scopes. -/
def handleStepUpAuthorization (st : StepUpState) (required : String) :
    StepUpOutcome :=
  if st.stepUpRetryCount ≥ st.maxStepUpRetries then
    { result := .error "Maximum step-up authorization retries exceeded"
      newCount := st.stepUpRetryCount
      authorizeInvoked := false }
  else
    { result := .ok (joinScopes (stepUpScopeList st.scopes required))
      newCount := st.stepUpRetryCount + 1
      authorizeInvoked := true }

/-- The constructor value of maxStepUpRetries. -/
def constructorMaxStepUpRetries : Nat := 3

/-- The component view of a parsed URL as exposed by the URL API:
protocol keeps its trailing colon, host includes any port, pathname
always begins with a slash, search and hash hold any query and
fragment. -/
structure URLParts where
  protocol : String
  host : String
  pathname : String
  search : String
  hash : String
  deriving Repr, DecidableEq

/-- Removal of every trailing slash, modelling the replace of the
trailing-slash regular expression with the empty string. -/
def stripTrailingSlashes (l : List Char) : List Char :=
  ((l.reverse.dropWhile (fun c => c == '/')).reverse)

/-- getCanonicalResourceUri: protocol, two slashes and host, then the
pathname when it is truthy and not the bare slash, with trailing
slashes removed from the result. -/
def getCanonicalResourceUri (u : URLParts) : String :=
  let base := u.protocol ++ "//" ++ u.host
  let withPath :=
    if u.pathname ≠ "" ∧ u.pathname ≠ "/" then base ++ u.pathname else base
  ⟨stripTrailingSlashes withPath.toList⟩

/-- The form parameters built by requestAuthorization. -/
def authRequestParams (clientId redirectUri scopes state codeChallenge : String)
    (u : URLParts) : List (String × String) :=
  [("response_type", "code"),
   ("client_id", clientId),
   ("redirect_uri", redirectUri),
   ("scope", scopes),
   ("state", state),
   ("code_challenge", codeChallenge),
   ("code_challenge_method", "S256"),
   ("resource", getCanonicalResourceUri u)]

/-- The form parameters built by exchangeCodeForToken. -/
def tokenExchangeParams (code redirectUri clientId codeVerifier : String)
    (u : URLParts) : List (String × String) :=
  [("grant_type", "authorization_code"),
   ("code", code),
   ("redirect_uri", redirectUri),
   ("client_id", clientId),
   ("code_verifier", codeVerifier),
   ("resource", getCanonicalResourceUri u)]

/-- The form parameters built by refreshAccessToken. -/
def refreshParams (refreshTok clientId : String) (u : URLParts) :
    List (String × String) :=
  [("grant_type", "refresh_token"),
   ("refresh_token", refreshTok),
   ("client_id", clientId),
   ("resource", getCanonicalResourceUri u)]

/-- Lookup of one form parameter by name. -/
def paramValue (name : String) (ps : List (String × String)) : Option String :=
  (ps.find? (fun p => p.1 == name)).map (fun p => p.2)

/-- JavaScript truthiness of an optional string: present and
non-empty. -/
def strTruthy : Option String → Bool
  | some s => s ≠ ""
  | none => false

/-- Outcome of the dynamic-registration fetch: a network error, a
non-ok status, or a parsed registration document carrying the issued
client identifier. -/
inductive RegFetchOutcome where
  | fetchError (msg : String)
  | notOk (status : Nat)
  | ok (clientId : String)
  deriving Repr, DecidableEq

/-- The body of the try block of registerClient: a non-ok status
throws, a network error propagates, a parsed document yields its
client_id. -/
def attemptRegistration : RegFetchOutcome → Except String String
  | .fetchError msg => .error msg
  | .notOk status => .error ("Registration failed: " ++ toString status)
  | .ok cid => .ok cid

/-- Result of registerClient: the client identifier held by the
instance, the durable-store entry for this server afterwards, and
whether the registration network request was attempted. -/
structure RegisterResult where
  clientId : Option String
  store : Option String
  networkAttempted : Bool
  deriving Repr, DecidableEq

/-- registerClient.  store0 is the durable-store entry read by
getStoredClientId; a truthy stored identifier is reused with no
network traffic and no store write.  Without a truthy registration
endpoint the prompt answer (or, when that is falsy, the public-client
constant) is adopted and persisted.  Otherwise the registration
request runs inside a try block whose catch adopts and persists the
public-client constant on any failure. -/
def registerClient (store0 : Option String) (regEndpoint : Option String)
    (promptAnswer : Option String) (fetchRes : RegFetchOutcome) :
    RegisterResult :=
  if strTruthy store0 then
    { clientId := store0, store := store0, networkAttempted := false }
  else if ¬ strTruthy regEndpoint then
    let cid := match promptAnswer with
      | some s => if s = "" then "mcpeek-public-client" else s
      | none => "mcpeek-public-client"
    { clientId := some cid, store := some cid, networkAttempted := false }
  else
    match attemptRegistration fetchRes with
    | .ok cid => { clientId := some cid, store := some cid, networkAttempted := true }
    | .error _ =>
      { clientId := some "mcpeek-public-client"
        store := some "mcpeek-public-client"
        networkAttempted := true }

end OAuth

/-! ## Helper lemmas -/

theorem mapGet_eq_none_of_forall_ne {k : Nat} {l : List (Nat × Nat)}
    (h : ∀ p ∈ l, p.1 ≠ k) : SSE.mapGet k l = none := by
  induction l with
  | nil => rfl
  | cons a as ih =>
    have ha : (a.1 == k) = false := by
      simpa using h a (by simp)
    have hrest : ∀ p ∈ as, p.1 ≠ k := fun p hp => h p (by simp [hp])
    simp only [SSE.mapGet, List.find?_cons, ha]
    exact ih hrest

theorem mapGet_mapDelete_self (k : Nat) (l : List (Nat × Nat)) :
    SSE.mapGet k (SSE.mapDelete k l) = none := by
  apply mapGet_eq_none_of_forall_ne
  intro p hp
  have h := List.mem_filter.mp hp
  simpa using h.2

theorem mem_of_mem_mapDelete {p : Nat × Nat} {k : Nat} {l : List (Nat × Nat)}
    (h : p ∈ SSE.mapDelete k l) : p ∈ l :=
  (List.mem_filter.mp h).1

theorem mem_dedupFirst {x : String} (l : List String) :
    ∀ seen, x ∈ OAuth.dedupFirst seen l ↔ (x ∈ l ∧ x ∉ seen) := by
  induction l with
  | nil => intro seen; simp [OAuth.dedupFirst]
  | cons a as ih =>
    intro seen
    by_cases ha : a ∈ seen
    · rw [OAuth.dedupFirst, if_pos ha, ih seen]
      constructor
      · rintro ⟨h1, h2⟩
        exact ⟨List.mem_cons_of_mem _ h1, h2⟩
      · rintro ⟨h1, h2⟩
        rcases List.mem_cons.mp h1 with h | h
        · exact absurd (h ▸ ha) h2
        · exact ⟨h, h2⟩
    · rw [OAuth.dedupFirst, if_neg ha]
      constructor
      · intro hmem
        rcases List.mem_cons.mp hmem with h | h
        · subst h; exact ⟨List.mem_cons_self _ _, ha⟩
        · have h' := (ih (a :: seen)).mp h
          exact ⟨List.mem_cons_of_mem _ h'.1,
            fun hx => h'.2 (List.mem_cons_of_mem _ hx)⟩
      · rintro ⟨h1, h2⟩
        rcases List.mem_cons.mp h1 with h | h
        · subst h; exact List.mem_cons_self _ _
        · by_cases hxa : x = a
          · subst hxa; exact List.mem_cons_self _ _
          · refine List.mem_cons_of_mem _ ((ih (a :: seen)).mpr ⟨h, ?_⟩)
            intro hx
            rcases List.mem_cons.mp hx with h' | h'
            · exact hxa h'
            · exact h2 h'

theorem leadsWith_append_self : ∀ (l r : List Char), Codec.leadsWith l (l ++ r) = true
  | [], _ => rfl
  | a :: as, r => by
    simp [Codec.leadsWith, leadsWith_append_self as r]

theorem containsSeq_of_leadsWith {pat l : List Char}
    (h : Codec.leadsWith pat l = true) : Codec.containsSeq pat l = true := by
  cases l with
  | nil => simpa [Codec.containsSeq] using h
  | cons c rest => simp [Codec.containsSeq, h]

theorem splitOnChar_ne_nil (c : Char) (l : List Char) : Codec.splitOnChar c l ≠ [] := by
  induction l with
  | nil => simp [Codec.splitOnChar]
  | cons a as ih =>
    simp only [Codec.splitOnChar]
    cases h : Codec.splitOnChar c as with
    | nil => simp
    | cons x xs => by_cases hac : a == c <;> simp [hac]

theorem splitOnChar_of_not_mem {c : Char} {l : List Char} (h : c ∉ l) :
    Codec.splitOnChar c l = [l] := by
  induction l with
  | nil => rfl
  | cons a as ih =>
    have hac : (a == c) = false := by
      simp only [beq_eq_false_iff_ne]
      intro e
      exact h (by simp [e])
    have has : c ∉ as := fun hm => h (List.mem_cons_of_mem _ hm)
    simp [Codec.splitOnChar, ih has, hac]

theorem splitOnChar_append_cons {c : Char} {l r : List Char} (h : c ∉ l) :
    Codec.splitOnChar c (l ++ c :: r) = l :: Codec.splitOnChar c r := by
  induction l with
  | nil =>
    simp only [List.nil_append, Codec.splitOnChar]
    cases hr : Codec.splitOnChar c r with
    | nil => exact absurd hr (splitOnChar_ne_nil c r)
    | cons x xs => simp
  | cons a as ih =>
    have hac : (a == c) = false := by
      simp only [beq_eq_false_iff_ne]
      intro e
      exact h (by simp [e])
    have has : c ∉ as := fun hm => h (List.mem_cons_of_mem _ hm)
    simp only [List.cons_append, Codec.splitOnChar, hac, List.append_eq]
    rw [ih has]
    simp

theorem stripTrailingSlashes_getLast_ne (l : List Char) :
    (OAuth.stripTrailingSlashes l).getLast? ≠ some '/' := by
  unfold OAuth.stripTrailingSlashes
  rw [List.getLast?_reverse]
  intro h
  have hd := List.head?_dropWhile_not (fun c => c == '/') l.reverse
  rw [h] at hd
  simp at hd

theorem stripTrailingSlashes_append {b p : List Char} (hb : b.getLast? ≠ some '/') :
    OAuth.stripTrailingSlashes (b ++ p) = b ++ OAuth.stripTrailingSlashes p := by
  unfold OAuth.stripTrailingSlashes
  rw [List.reverse_append, List.dropWhile_append]
  by_cases hemp : (p.reverse.dropWhile (fun c => c == '/')).isEmpty
  · rw [if_pos hemp]
    have hrev : p.reverse.dropWhile (fun c => c == '/') = [] :=
      List.isEmpty_iff.mp hemp
    rw [hrev]
    cases hbrev : b.reverse with
    | nil =>
      have : b = [] := List.reverse_eq_nil_iff.mp hbrev
      simp [this]
    | cons x xs =>
      have hlast : b.getLast? = some x := by
        rw [List.getLast?_eq_head?_reverse, hbrev]
        rfl
      have hx : (x == '/') = false := by
        simp only [beq_eq_false_iff_ne]
        intro e
        exact hb (by rw [hlast, e])
      rw [List.dropWhile_cons_of_neg (by simp [hx])]
      rw [← hbrev, List.reverse_reverse]
      simp
  · rw [if_neg hemp]
    simp [List.reverse_append]

theorem mem_of_mem_stripTrailingSlashes {x : Char} {l : List Char}
    (h : x ∈ OAuth.stripTrailingSlashes l) : x ∈ l := by
  unfold OAuth.stripTrailingSlashes at h
  rw [List.mem_reverse] at h
  have h2 := List.Sublist.subset (List.dropWhile_sublist _) h
  exact List.mem_reverse.mp h2

theorem toList_append_eq (a b : String) : (a ++ b).toList = a.toList ++ b.toList :=
  String.data_append a b

/-! ## Claim theorems -/

/-- Authorization-server metadata whose proof-key list lacks S256. -/
def mdPlainOnly : OAuth.AuthServerMetadata :=
  { authorizationEndpoint := "https://as.example.com/authorize"
    tokenEndpoint := "https://as.example.com/token"
    registrationEndpoint := none
    codeChallengeMethodsSupported := some ["plain"] }

/-- Authorization-server metadata advertising S256. -/
def mdWithS256 : OAuth.AuthServerMetadata :=
  { authorizationEndpoint := "https://as2.example.com/authorize"
    tokenEndpoint := "https://as2.example.com/token"
    registrationEndpoint := none
    codeChallengeMethodsSupported := some ["S256"] }

/-- C1: the claim says a successfully fetched metadata document without
S256 aborts the attempt at once, probing no further location and never
proceeding.  In the code the S256-rejection throw is raised inside the
probe loop's try block and caught by that same loop's catch, so after
a first location whose metadata lacks S256 the second location is
probed and, when it advertises S256, discovery succeeds and the flow
proceeds; when no later location succeeds, the error finally raised is
the generic discovery failure, not the PKCE rejection. -/
theorem C1_pkce_rejection_swallowed :
    OAuth.discoverAuthServer [.ok mdPlainOnly, .ok mdWithS256] = .ok mdWithS256
    ∧ OAuth.probesAttempted [.ok mdPlainOnly, .ok mdWithS256] = 2
    ∧ OAuth.discoverAuthServer [.ok mdPlainOnly]
        = .error "Failed to discover authorization server metadata" :=
  ⟨rfl, rfl, rfl⟩

/-- An initialize response carrying an id and result.capabilities, as a
compliant server returns. -/
def initOkResponse : SSE.InMessage :=
  { id := some 1
    result := some { capabilities := true, tools := .absent }
    error := none }

/-- C2: the claim (and the project's own README, IMPROVEMENTS notes and
testing checklist) requires notifications/initialized to be sent
exactly once after a successful initialize and before tools/list.  The
outgoing trace of a successful connect in the session client consists
of the initialize request followed directly by the tools/list request:
no notifications/initialized envelope is ever constructed. -/
theorem C2_initialized_notification_never_sent :
    (SSE.connectOutgoing true "session-1" none initOkResponse).map
        SSE.OutMessage.method
      = ["initialize", "tools/list"] := rfl

/-- C3 counterexample: on a failed token-endpoint response the function
throws before the removal statements run, so the ephemeral store still
holds both the proof-key verifier and the state nonce, contradicting
the claim that every failure path removes them. -/
theorem C3_failure_path_keeps_verifier :
    (OAuth.exchangeCodeForToken
        { accessToken := none, refreshToken := none,
          tokenExpiresAt := none, scopes := none }
        { oauthCodeVerifier := some "verifier-1", oauthState := some "state-1" }
        0 (.notOk "invalid_request" "bad")).2
      = { oauthCodeVerifier := some "verifier-1", oauthState := some "state-1" } :=
  rfl

/-- C3 amended: after a code exchange the ephemeral oauth_code_verifier
and oauth_state entries are removed on the success path; on every
failure path the function throws before the removal statements, so the
ephemeral store is left exactly as it was. -/
theorem C3_ephemeral_cleared_on_success_only (st : OAuth.TokenState)
    (store : OAuth.EphemeralStore) (now : Nat) (tr : OAuth.TokenResponse)
    (e d : String) :
    (OAuth.exchangeCodeForToken st store now (.ok tr)).2
        = { oauthCodeVerifier := none, oauthState := none }
    ∧ (OAuth.exchangeCodeForToken st store now (.notOk e d)).2 = store :=
  ⟨rfl, rfl⟩

theorem listToolsSend_state (s : SSE.SSEState) :
    (SSE.listToolsSend s).1.pendingRequests = s.pendingRequests
    ∧ s.messageId ≤ (SSE.listToolsSend s).1.messageId := by
  unfold SSE.listToolsSend
  cases hs : s.sessionId <;> simp [SSE.getNextId]

theorem applyToolsUpdate_state (s : SSE.SSEState) (m : SSE.InMessage) :
    (SSE.applyToolsUpdate s m).pendingRequests = s.pendingRequests
    ∧ (SSE.applyToolsUpdate s m).messageId = s.messageId := by
  unfold SSE.applyToolsUpdate
  split
  · rcases m with ⟨mid, mres, merr⟩
    rcases mres with _ | r
    · exact ⟨rfl, rfl⟩
    · rcases r with ⟨caps, tls⟩
      cases tls <;> exact ⟨rfl, rfl⟩
  · exact ⟨rfl, rfl⟩

theorem applyPendingRemoval_spec (s : SSE.SSEState) (m : SSE.InMessage) :
    (SSE.applyPendingRemoval s m).2 = SSE.pendingCond s.pendingRequests m
    ∧ (SSE.applyPendingRemoval s m).1.messageId = s.messageId
    ∧ (SSE.applyPendingRemoval s m).1.pendingRequests
        = (if SSE.pendingCond s.pendingRequests m then
            (match m.id with
              | some i => SSE.mapDelete i s.pendingRequests
              | none => s.pendingRequests)
           else s.pendingRequests) := by
  unfold SSE.applyPendingRemoval
  refine ⟨rfl, ?_, ?_⟩ <;>
    by_cases hp : SSE.pendingCond s.pendingRequests m <;>
      simp only [hp, if_true, if_false] <;>
        cases hmid : m.id <;>
          rfl

theorem handleMCPMessage_effects (s : SSE.SSEState) (m : SSE.InMessage) :
    (SSE.handleMCPMessage s m).2.2.observerNotified = s.onMessageSet
    ∧ (SSE.handleMCPMessage s m).2.2.initFlowFired = SSE.initFlowCond m
    ∧ (SSE.handleMCPMessage s m).2.2.toolsFlowFired = SSE.toolsFlowCond m
    ∧ (SSE.handleMCPMessage s m).2.2.pendingResolved
        = SSE.pendingCond s.pendingRequests m
    ∧ (SSE.handleMCPMessage s m).1.pendingRequests
        = (if SSE.pendingCond s.pendingRequests m then
            (match m.id with
              | some i => SSE.mapDelete i s.pendingRequests
              | none => s.pendingRequests)
           else s.pendingRequests)
    ∧ s.messageId ≤ (SSE.handleMCPMessage s m).1.messageId := by
  have hstep1p :
      (if SSE.initFlowCond m then SSE.listToolsSend s else (s, [])).1.pendingRequests
        = s.pendingRequests := by
    split
    · exact (listToolsSend_state s).1
    · rfl
  have hstep1m :
      s.messageId
        ≤ (if SSE.initFlowCond m then SSE.listToolsSend s else (s, [])).1.messageId := by
    split
    · exact (listToolsSend_state s).2
    · exact le_refl _
  have h2p :
      (SSE.applyToolsUpdate
          (if SSE.initFlowCond m then SSE.listToolsSend s else (s, [])).1 m).pendingRequests
        = s.pendingRequests := by
    rw [(applyToolsUpdate_state _ m).1, hstep1p]
  have h2m :
      s.messageId
        ≤ (SSE.applyToolsUpdate
            (if SSE.initFlowCond m then SSE.listToolsSend s else (s, [])).1 m).messageId := by
    rw [(applyToolsUpdate_state _ m).2]
    exact hstep1m
  have hpr := applyPendingRemoval_spec
    (SSE.applyToolsUpdate
      (if SSE.initFlowCond m then SSE.listToolsSend s else (s, [])).1 m) m
  refine ⟨rfl, rfl, rfl, ?_, ?_, ?_⟩
  · show (SSE.applyPendingRemoval _ m).2 = _
    rw [hpr.1, h2p]
  · show (SSE.applyPendingRemoval _ m).1.pendingRequests = _
    rw [hpr.2.2, h2p]
  · show s.messageId ≤ (SSE.applyPendingRemoval _ m).1.messageId
    rw [hpr.2.1]
    exact h2m

/-- C4 counterexample: on a fresh session the initialize request
carries the literal id 1, and the first counter-issued request, the
tools/list sent right after session initialization, carries id 1 as
well — so the id of the initialize request is reused by a later
tools/list request on the same session. -/
theorem C4_initialize_id_reused :
    SSE.initRequest.id = some 1
    ∧ (SSE.listToolsSend
          (SSE.initSessionState (SSE.initState false) "session-1" none)).2
        = [{ id := some 1, method := "tools/list" }] :=
  ⟨rfl, rfl⟩

/-- C4 amended: the counter getNextId issues its current value and
then strictly increases, a freshly issued id is never one with a
still-registered pending call as long as every pending id is below the
counter — an invariant that holds at construction and is preserved by
callTool, listTools and incoming-message dispatch — but the initialize
request does not draw from the counter: it carries the hard-coded id
1, which is exactly the first id the counter of a fresh session will
issue, so the initialize id is reused by the first counter-issued
request. -/
theorem C4_ids_fresh_only_for_counter_issued (s : SSE.SSEState)
    (m : SSE.InMessage) (cb : Option Nat)
    (hinv : ∀ p ∈ s.pendingRequests, p.1 < s.messageId) :
    ((SSE.getNextId s).1 = s.messageId
        ∧ (SSE.getNextId s).2.messageId = s.messageId + 1)
    ∧ SSE.mapHas (SSE.getNextId s).1 s.pendingRequests = false
    ∧ (∀ p ∈ (SSE.callToolSend s cb).1.pendingRequests,
        p.1 < (SSE.callToolSend s cb).1.messageId)
    ∧ (∀ p ∈ (SSE.listToolsSend s).1.pendingRequests,
        p.1 < (SSE.listToolsSend s).1.messageId)
    ∧ (∀ p ∈ (SSE.handleMCPMessage s m).1.pendingRequests,
        p.1 < (SSE.handleMCPMessage s m).1.messageId)
    ∧ SSE.initRequest.id = some (SSE.getNextId (SSE.initState true)).1 := by
  refine ⟨⟨rfl, rfl⟩, ?_, ?_, ?_, ?_, rfl⟩
  · have h0 : SSE.mapGet s.messageId s.pendingRequests = none :=
      mapGet_eq_none_of_forall_ne (fun p hp => Nat.ne_of_lt (hinv p hp))
    show SSE.mapHas s.messageId s.pendingRequests = false
    simp [SSE.mapHas, h0]
  · intro p hp
    cases cb with
    | none =>
      simp only [SSE.callToolSend, SSE.getNextId] at hp ⊢
      exact Nat.lt_succ_of_lt (hinv p hp)
    | some c =>
      simp only [SSE.callToolSend, SSE.getNextId] at hp ⊢
      rcases List.mem_cons.mp hp with h | h
      · rw [h]
        exact Nat.lt_succ_self _
      · exact Nat.lt_succ_of_lt (hinv p h)
  · intro p hp
    rw [(listToolsSend_state s).1] at hp
    exact Nat.lt_of_lt_of_le (hinv p hp) (listToolsSend_state s).2
  · intro p hp
    have heff := handleMCPMessage_effects s m
    rw [heff.2.2.2.2.1] at hp
    have hmem : p ∈ s.pendingRequests := by
      by_cases hc : SSE.pendingCond s.pendingRequests m
      · rw [if_pos hc] at hp
        cases hmid : m.id with
        | none => rw [hmid] at hp; exact hp
        | some i =>
          rw [hmid] at hp
          exact mem_of_mem_mapDelete hp
      · rw [if_neg hc] at hp
        exact hp
    exact Nat.lt_of_lt_of_le (hinv p hmem) heff.2.2.2.2.2

/-- A concrete session state with one pending call registered under
id 2 and the counter at 5. -/
def midSessionState : SSE.SSEState :=
  { connected := true
    tools := []
    messageId := 5
    pendingRequests := [(2, 7)]
    sessionId := some "sid"
    serverInfo := none
    onMessageSet := true }

/-- C4 amended, witness: the invariant holds for a concrete state
with one pending call, and the theorem applies there. -/
theorem C4_ids_fresh_only_for_counter_issued_witness :
    (∀ p ∈ midSessionState.pendingRequests, p.1 < midSessionState.messageId)
    ∧ ((SSE.getNextId midSessionState).1 = midSessionState.messageId
        ∧ (SSE.getNextId midSessionState).2.messageId
            = midSessionState.messageId + 1)
    ∧ SSE.mapHas (SSE.getNextId midSessionState).1
        midSessionState.pendingRequests = false :=
  have h := C4_ids_fresh_only_for_counter_issued midSessionState
    { id := none, result := none, error := none } none (by decide)
  ⟨by decide, h.1, h.2.1⟩

/-- A concrete session state with one pending call registered under
id 5. -/
def pendingFiveState : SSE.SSEState :=
  { connected := true
    tools := []
    messageId := 7
    pendingRequests := [(5, 0)]
    sessionId := some "sid"
    serverInfo := none
    onMessageSet := true }

/-- A response whose id is 5 and whose result carries truthy
capabilities. -/
def capabilitiesResponseFive : SSE.InMessage :=
  { id := some 5
    result := some { capabilities := true, tools := .absent }
    error := none }

/-- C5 counterexample: a response whose id matches a registered
pending call and whose result carries capabilities makes the pending
block, the initialize-flow block and the observer delivery all fire
for the same message, contradicting the claim that exactly one of the
three dispatch paths fires. -/
theorem C5_multiple_paths_fire :
    (SSE.handleMCPMessage pendingFiveState capabilitiesResponseFive).2.2
      = { observerNotified := true, initFlowFired := true,
          toolsFlowFired := false, pendingResolved := true } :=
  rfl

/-- C5 amended: every decoded envelope is delivered to the generic
observer whenever one is installed, and independently each of the
three condition blocks fires exactly when its own condition holds on
the incoming message — the pending block against the pending map as it
was when the message arrived, whose matching record it removes — so
several paths can fire for one message. -/
theorem C5_dispatch_paths_independent (s : SSE.SSEState) (m : SSE.InMessage)
    (k : Nat) (l : List (Nat × Nat)) :
    (SSE.handleMCPMessage s m).2.2.observerNotified = s.onMessageSet
    ∧ (SSE.handleMCPMessage s m).2.2.initFlowFired = SSE.initFlowCond m
    ∧ (SSE.handleMCPMessage s m).2.2.toolsFlowFired = SSE.toolsFlowCond m
    ∧ (SSE.handleMCPMessage s m).2.2.pendingResolved
        = SSE.pendingCond s.pendingRequests m
    ∧ (SSE.handleMCPMessage s m).1.pendingRequests
        = (if SSE.pendingCond s.pendingRequests m then
            (match m.id with
              | some i => SSE.mapDelete i s.pendingRequests
              | none => s.pendingRequests)
           else s.pendingRequests)
    ∧ SSE.mapGet k (SSE.mapDelete k l) = none := by
  have h := handleMCPMessage_effects s m
  exact ⟨h.1, h.2.1, h.2.2.1, h.2.2.2.1, h.2.2.2.2.1, mapGet_mapDelete_self k l⟩

/-- C6: with the constructor retry bound of 3, each step-up challenge
arriving while the counter is below 3 increments the counter and
re-enters the full authorization cycle requesting exactly the union
of the granted and newly required scopes; a challenge arriving once
the counter has reached the bound — the fourth on one context —
throws the step-up-exceeded error without invoking authorize, hence
before any network request. -/
theorem C6_step_up_bound (st : OAuth.StepUpState) (required : String)
    (hmax : st.maxStepUpRetries = OAuth.constructorMaxStepUpRetries) :
    (st.stepUpRetryCount < 3 →
      (OAuth.handleStepUpAuthorization st required).authorizeInvoked = true
      ∧ (OAuth.handleStepUpAuthorization st required).newCount
          = st.stepUpRetryCount + 1
      ∧ (OAuth.handleStepUpAuthorization st required).result
          = .ok (OAuth.joinScopes (OAuth.stepUpScopeList st.scopes required))
      ∧ ∀ x, x ∈ OAuth.stepUpScopeList st.scopes required ↔
          (x ∈ (match st.scopes with
                 | some sc => OAuth.splitScopes sc
                 | none => ([] : List String)) ∨ x ∈ OAuth.splitScopes required))
    ∧ (3 ≤ st.stepUpRetryCount →
      (OAuth.handleStepUpAuthorization st required).authorizeInvoked = false
      ∧ (OAuth.handleStepUpAuthorization st required).result
          = .error "Maximum step-up authorization retries exceeded"
      ∧ (OAuth.handleStepUpAuthorization st required).newCount
          = st.stepUpRetryCount) := by
  have h3 : st.maxStepUpRetries = 3 := hmax
  constructor
  · intro hlt
    have hge : ¬ st.stepUpRetryCount ≥ st.maxStepUpRetries := by
      rw [h3]
      omega
    refine ⟨?_, ?_, ?_, ?_⟩
    · simp only [OAuth.handleStepUpAuthorization, if_neg hge]
    · simp only [OAuth.handleStepUpAuthorization, if_neg hge]
    · simp only [OAuth.handleStepUpAuthorization, if_neg hge]
    · intro x
      simp only [OAuth.stepUpScopeList]
      rw [mem_dedupFirst]
      simp [List.mem_append]
  · intro hge4
    have hcond : st.stepUpRetryCount ≥ st.maxStepUpRetries := by
      rw [h3]
      exact hge4
    exact ⟨by simp only [OAuth.handleStepUpAuthorization, if_pos hcond],
      by simp only [OAuth.handleStepUpAuthorization, if_pos hcond],
      by simp only [OAuth.handleStepUpAuthorization, if_pos hcond]⟩

/-- A context holding scope a with no step-up attempt yet. -/
def stepUpFresh : OAuth.StepUpState :=
  { scopes := some "a"
    stepUpRetryCount := 0
    maxStepUpRetries := 3 }

/-- A context whose step-up counter has reached the bound. -/
def stepUpExhausted : OAuth.StepUpState :=
  { scopes := some "a"
    stepUpRetryCount := 3
    maxStepUpRetries := 3 }

/-- C6 witness: a first challenge on a fresh context re-authorizes,
while a challenge on an exhausted context fails without authorize. -/
theorem C6_step_up_bound_witness :
    ((0 : Nat) < 3
      ∧ (OAuth.handleStepUpAuthorization stepUpFresh "b a").authorizeInvoked = true)
    ∧ ((3 : Nat) ≤ 3
      ∧ (OAuth.handleStepUpAuthorization stepUpExhausted "b").authorizeInvoked
          = false) :=
  ⟨⟨by decide, ((C6_step_up_bound stepUpFresh "b a" rfl).1 (by decide)).1⟩,
   ⟨by decide, ((C6_step_up_bound stepUpExhausted "b" rfl).2 (by decide)).1⟩⟩

/-- A credential state holding nothing. -/
def emptyTokenState : OAuth.TokenState :=
  { accessToken := none
    refreshToken := none
    tokenExpiresAt := none
    scopes := none }

/-- Empty storage areas. -/
def emptyStored : OAuth.StoredCredentials :=
  { sessionAccessToken := none
    sessionExpiresAt := none
    localRefreshToken := none
    localScopes := none }

/-- A token response issuing a sixty-second lifetime. -/
def shortLivedResponse : OAuth.TokenResponse :=
  { accessToken := "fresh-token"
    refreshToken := none
    scope := none
    expiresIn := some 60 }

/-- C7 counterexample: with no access token held and nothing
recoverable from storage, getAccessToken throws the
authorization-required error without attempting any refresh, though
the claim says an absent access token is a condition under which a
refresh is attempted. -/
theorem C7_absent_token_does_not_refresh :
    (OAuth.getAccessToken emptyTokenState emptyStored 1000
        (.ok shortLivedResponse)).refreshAttempted = false
    ∧ (OAuth.getAccessToken emptyTokenState emptyStored 1000
        (.ok shortLivedResponse)).result
      = .error "No access token. Authorization required." :=
  ⟨rfl, rfl⟩

theorem getAccessTokenCore_spec (st1 : OAuth.TokenState) (now : Nat)
    (resp : OAuth.TokenFetchOutcome) :
    (OAuth.getAccessTokenCore st1 now resp).refreshAttempted
      = (st1.accessToken.isSome && OAuth.refreshDue st1 now) := by
  cases hacc : st1.accessToken with
  | none => simp [OAuth.getAccessTokenCore, hacc]
  | some a =>
    by_cases hdue : OAuth.refreshDue st1 now
    · rcases h : OAuth.refreshAccessToken st1 now resp with ⟨res, b⟩
      cases res <;> simp [OAuth.getAccessTokenCore, hacc, hdue, h]
    · simp [OAuth.getAccessTokenCore, hacc, hdue]

/-- C7 amended: a refresh is attempted if and only if, after the
optional load from storage, an access token is held and the stored
expiry is truthy with the current time at or past expiry minus sixty
seconds; an access token absent even after the load throws the
authorization-required error with no refresh attempt; and a
successful refresh carrying a nonzero lifetime sets the expiry to the
current time plus that lifetime in milliseconds. -/
theorem C7_refresh_iff_due (st : OAuth.TokenState)
    (stored : OAuth.StoredCredentials) (now : Nat)
    (resp : OAuth.TokenFetchOutcome) :
    ((OAuth.getAccessToken st stored now resp).refreshAttempted
      = ((if st.accessToken = none
            then OAuth.loadTokens st stored else st).accessToken.isSome
          && OAuth.refreshDue
              (if st.accessToken = none
                then OAuth.loadTokens st stored else st) now))
    ∧ ((if st.accessToken = none
          then OAuth.loadTokens st stored else st).accessToken = none →
        (OAuth.getAccessToken st stored now resp).result
          = .error "No access token. Authorization required."
        ∧ (OAuth.getAccessToken st stored now resp).refreshAttempted = false)
    ∧ (∀ (tr : OAuth.TokenResponse) (e : Nat), st.refreshToken.isSome = true →
        tr.expiresIn = some e → e ≠ 0 →
        ∃ st2, (OAuth.refreshAccessToken st now (.ok tr)).1 = .ok st2
          ∧ st2.tokenExpiresAt = some (now + e * 1000)
          ∧ st2.accessToken = some tr.accessToken) := by
  refine ⟨getAccessTokenCore_spec _ now resp, ?_, ?_⟩
  · intro hnone
    constructor
    · show (OAuth.getAccessTokenCore _ now resp).result = _
      simp [OAuth.getAccessTokenCore, hnone]
    · show (OAuth.getAccessTokenCore _ now resp).refreshAttempted = false
      simp [OAuth.getAccessTokenCore, hnone]
  · intro tr e hrt hei hene
    cases hrtv : st.refreshToken with
    | none => rw [hrtv] at hrt; simp at hrt
    | some r =>
      simp only [OAuth.refreshAccessToken, hrtv]
      refine ⟨_, rfl, ?_, rfl⟩
      simp [OAuth.expiresInTruthy, hei, hene]

/-- A credential state whose token expires at time 100000. -/
def expiringTokenState : OAuth.TokenState :=
  { accessToken := some "old-token"
    refreshToken := some "refresh-1"
    tokenExpiresAt := some 100000
    scopes := some "a" }

/-- C7 amended, witness: at time 50000 a token expiring at 100000 is
inside the sixty-second window, so the refresh runs and the new
sixty-second lifetime yields expiry 110000. -/
theorem C7_refresh_iff_due_witness :
    (OAuth.getAccessToken expiringTokenState emptyStored 50000
        (.ok shortLivedResponse)).refreshAttempted = true
    ∧ ∃ st2,
        (OAuth.refreshAccessToken expiringTokenState 50000
            (.ok shortLivedResponse)).1 = .ok st2
        ∧ st2.tokenExpiresAt = some (50000 + 60 * 1000)
        ∧ st2.accessToken = some shortLivedResponse.accessToken := by
  have h := C7_refresh_iff_due expiringTokenState emptyStored 50000
    (.ok shortLivedResponse)
  exact ⟨by rw [h.1]; rfl,
    h.2.2 shortLivedResponse 60 rfl rfl (by decide)⟩

/-- C8 counterexample: a body consisting of one data line and nothing
else carries a data:-prefixed line, yet the extraction yields nothing
because the body lacks the event-message marker — the claim says a
framed body is decoded whenever a data line is present, regardless of
the accompanying framing lines. -/
theorem C8_data_line_alone_not_decoded :
    Codec.extractFramedPayload ("data: 7".toList) = none := rfl

/-- C8 amended: a framed body is decoded only when it contains the
text of an event-message line; in that case the payload of the first
data line is extracted exactly, so a direct JSON body p and an event
frame whose data line carries p hand the identical document to the
JSON parsing layer. -/
theorem C8_framed_extraction_roundtrip (p : List Char) (hp : '\n' ∉ p) :
    Codec.extractFramedPayload
        (Codec.eventMessageMarker ++ '\n' :: (Codec.dataMarker ++ p))
      = some (Codec.directPayload p) := by
  have hcont : Codec.containsSeq Codec.eventMessageMarker
      (Codec.eventMessageMarker ++ '\n' :: (Codec.dataMarker ++ p)) = true :=
    containsSeq_of_leadsWith (leadsWith_append_self _ _)
  have hnotm : ('\n' : Char) ∉ Codec.eventMessageMarker := by decide
  have hnotd : ('\n' : Char) ∉ Codec.dataMarker ++ p := by
    intro hmem
    rcases List.mem_append.mp hmem with h | h
    · exact absurd h (by decide)
    · exact hp h
  have h1 : Codec.leadsWith Codec.dataMarker Codec.eventMessageMarker = false := by
    decide
  have h2 : Codec.leadsWith Codec.dataMarker (Codec.dataMarker ++ p) = true :=
    leadsWith_append_self _ _
  unfold Codec.extractFramedPayload
  rw [if_pos hcont, splitOnChar_append_cons hnotm, splitOnChar_of_not_mem hnotd]
  simp only [List.find?_cons, h1, h2]
  rw [show (6 : Nat) = Codec.dataMarker.length from rfl, List.drop_left]
  rfl

/-- C8 amended, witness: extraction of a one-character payload from a
well-formed event frame. -/
theorem C8_framed_extraction_roundtrip_witness :
    (('\n' : Char) ∉ "7".toList)
    ∧ Codec.extractFramedPayload
        (Codec.eventMessageMarker ++ '\n' :: (Codec.dataMarker ++ "7".toList))
      = some (Codec.directPayload "7".toList) :=
  ⟨by decide, C8_framed_extraction_roundtrip ("7".toList) (by decide)⟩

/-- C9: for a fixed server URL whose host is non-empty and free of
slashes and whose components carry no raw query or fragment
characters (as the URL API guarantees), the resource parameter built
by the authorization request, the code exchange and the refresh is in
each case the same canonical string, and that string is the protocol,
two slashes and the host followed by the pathname stripped of
trailing slashes — with no question mark, no hash mark and no
trailing slash. -/
theorem C9_resource_indicator_canonical (u : OAuth.URLParts)
    (clientId redirectUri scopes state codeChallenge code codeVerifier
      refreshTok : String)
    (hhost : u.host ≠ "")
    (hslash : '/' ∉ u.host.toList)
    (hq : '?' ∉ u.protocol.toList ∧ '?' ∉ u.host.toList ∧ '?' ∉ u.pathname.toList)
    (hf : '#' ∉ u.protocol.toList ∧ '#' ∉ u.host.toList ∧ '#' ∉ u.pathname.toList) :
    (OAuth.paramValue "resource"
        (OAuth.authRequestParams clientId redirectUri scopes state codeChallenge u)
        = some (OAuth.getCanonicalResourceUri u)
      ∧ OAuth.paramValue "resource"
          (OAuth.tokenExchangeParams code redirectUri clientId codeVerifier u)
        = some (OAuth.getCanonicalResourceUri u)
      ∧ OAuth.paramValue "resource" (OAuth.refreshParams refreshTok clientId u)
        = some (OAuth.getCanonicalResourceUri u))
    ∧ (OAuth.getCanonicalResourceUri u).toList
        = u.protocol.toList ++ '/' :: '/' :: (u.host.toList
            ++ OAuth.stripTrailingSlashes
                (if u.pathname ≠ "" ∧ u.pathname ≠ "/"
                  then u.pathname.toList else []))
    ∧ '?' ∉ (OAuth.getCanonicalResourceUri u).toList
    ∧ '#' ∉ (OAuth.getCanonicalResourceUri u).toList
    ∧ (OAuth.getCanonicalResourceUri u).toList.getLast? ≠ some '/' := by
  have hbaseData : (u.protocol ++ "//" ++ u.host).toList
      = u.protocol.toList ++ '/' :: '/' :: u.host.toList := by
    rw [toList_append_eq, toList_append_eq, List.append_assoc]
    rfl
  have hhostne : u.host.toList ≠ [] := by
    intro h
    exact hhost (String.ext h)
  have hconsLast : ('/' :: '/' :: u.host.toList).getLast? = u.host.toList.getLast? := by
    rw [show ('/' :: '/' :: u.host.toList) = ['/', '/'] ++ u.host.toList from rfl,
      List.getLast?_append]
    cases hl : u.host.toList.getLast? with
    | none => exact absurd (List.getLast?_eq_none_iff.mp hl) hhostne
    | some c => rfl
  have hlastbase : ((u.protocol ++ "//" ++ u.host).toList).getLast? ≠ some '/' := by
    rw [hbaseData]
    intro hcontra
    rw [List.getLast?_append, hconsLast] at hcontra
    cases hl : u.host.toList.getLast? with
    | none => exact hhostne (List.getLast?_eq_none_iff.mp hl)
    | some c =>
      rw [hl] at hcontra
      have hc : c = '/' := by simpa using hcontra
      exact hslash (hc ▸ List.mem_of_getLast?_eq_some hl)
  have hB : (OAuth.getCanonicalResourceUri u).toList
      = u.protocol.toList ++ '/' :: '/' :: (u.host.toList
          ++ OAuth.stripTrailingSlashes
              (if u.pathname ≠ "" ∧ u.pathname ≠ "/"
                then u.pathname.toList else [])) := by
    show OAuth.stripTrailingSlashes
        ((if u.pathname ≠ "" ∧ u.pathname ≠ "/"
            then u.protocol ++ "//" ++ u.host ++ u.pathname
            else u.protocol ++ "//" ++ u.host)).toList = _
    by_cases hcond : u.pathname ≠ "" ∧ u.pathname ≠ "/"
    · simp only [if_pos hcond]
      rw [toList_append_eq, stripTrailingSlashes_append hlastbase, hbaseData]
      simp [List.append_assoc]
    · simp only [if_neg hcond]
      have h0 : OAuth.stripTrailingSlashes ([] : List Char) = [] := rfl
      have hstrip : OAuth.stripTrailingSlashes
          ((u.protocol ++ "//" ++ u.host).toList)
          = (u.protocol ++ "//" ++ u.host).toList := by
        have h := stripTrailingSlashes_append (p := ([] : List Char)) hlastbase
        rw [List.append_nil, h0, List.append_nil] at h
        exact h
      rw [hstrip, hbaseData, h0]
      simp
  have hsubset : ∀ x, x ∈ (OAuth.getCanonicalResourceUri u).toList →
      x ∈ u.protocol.toList ∨ x = '/' ∨ x ∈ u.host.toList ∨ x ∈ u.pathname.toList := by
    intro x hx
    rw [hB] at hx
    rcases List.mem_append.mp hx with h | h
    · exact Or.inl h
    · rcases List.mem_cons.mp h with h1 | h1
      · exact Or.inr (Or.inl h1)
      · rcases List.mem_cons.mp h1 with h2 | h2
        · exact Or.inr (Or.inl h2)
        · rcases List.mem_append.mp h2 with h3 | h3
          · exact Or.inr (Or.inr (Or.inl h3))
          · have h4 := mem_of_mem_stripTrailingSlashes h3
            by_cases hcond : u.pathname ≠ "" ∧ u.pathname ≠ "/"
            · rw [if_pos hcond] at h4
              exact Or.inr (Or.inr (Or.inr h4))
            · rw [if_neg hcond] at h4
              exact absurd h4 (List.not_mem_nil x)
  refine ⟨⟨rfl, rfl, rfl⟩, hB, ?_, ?_, ?_⟩
  · intro hx
    rcases hsubset '?' hx with h | h | h | h
    · exact hq.1 h
    · exact absurd h (by decide)
    · exact hq.2.1 h
    · exact hq.2.2 h
  · intro hx
    rcases hsubset '#' hx with h | h | h | h
    · exact hf.1 h
    · exact absurd h (by decide)
    · exact hf.2.1 h
    · exact hf.2.2 h
  · exact stripTrailingSlashes_getLast_ne _

/-- A concrete parsed server URL with port and trailing slash. -/
def sampleUrl : OAuth.URLParts :=
  { protocol := "https:"
    host := "api.example.com:8443"
    pathname := "/mcp/"
    search := ""
    hash := "" }

/-- C9 witness: the hypotheses hold for a concrete URL and the three
requests carry the same canonical resource string, which evaluates to
the expected value and ends in no slash. -/
theorem C9_resource_indicator_canonical_witness :
    (sampleUrl.host ≠ "" ∧ '/' ∉ sampleUrl.host.toList)
    ∧ OAuth.getCanonicalResourceUri sampleUrl = "https://api.example.com:8443/mcp"
    ∧ OAuth.paramValue "resource" (OAuth.refreshParams "r" "cid" sampleUrl)
        = some (OAuth.getCanonicalResourceUri sampleUrl)
    ∧ (OAuth.getCanonicalResourceUri sampleUrl).toList.getLast? ≠ some '/' :=
  have h := C9_resource_indicator_canonical sampleUrl
    "cid" "ru" "sc" "st" "cc" "co" "cv" "r"
    (by decide) (by decide)
    ⟨by decide, by decide, by decide⟩ ⟨by decide, by decide, by decide⟩
  ⟨⟨by decide, by decide⟩, by decide, h.1.2.2, h.2.2.2.2⟩

/-- C10: registerClient is total over its inputs — every throw site
sits inside the try block whose catch adopts the public-client
constant — and in every case it finishes holding a client identifier
that also sits in the durable store for this server, the stored value
is truthy so a later run short-circuits with no network attempt, a
truthy stored identifier is reused as-is with no network attempt, and
a failed registration attempt (network error or non-ok status) falls
back to the constant.  The single hypothesis mirrors RFC 7591: a
successful registration document carries a non-empty client_id. -/
theorem C10_register_never_fails (store0 regEndpoint promptAnswer : Option String)
    (fetchRes : OAuth.RegFetchOutcome)
    (hok : ∀ cid, fetchRes = OAuth.RegFetchOutcome.ok cid → cid ≠ "") :
    (OAuth.registerClient store0 regEndpoint promptAnswer fetchRes).clientId.isSome
        = true
    ∧ (OAuth.registerClient store0 regEndpoint promptAnswer fetchRes).store
        = (OAuth.registerClient store0 regEndpoint promptAnswer fetchRes).clientId
    ∧ OAuth.strTruthy
        (OAuth.registerClient store0 regEndpoint promptAnswer fetchRes).store = true
    ∧ (∀ e' p' f', OAuth.registerClient
          (OAuth.registerClient store0 regEndpoint promptAnswer fetchRes).store
          e' p' f'
        = { clientId :=
              (OAuth.registerClient store0 regEndpoint promptAnswer fetchRes).store
            store :=
              (OAuth.registerClient store0 regEndpoint promptAnswer fetchRes).store
            networkAttempted := false })
    ∧ (OAuth.strTruthy store0 = true →
        OAuth.registerClient store0 regEndpoint promptAnswer fetchRes
          = { clientId := store0, store := store0, networkAttempted := false })
    ∧ (OAuth.strTruthy store0 = false → OAuth.strTruthy regEndpoint = true →
        ∀ msg, OAuth.attemptRegistration fetchRes = .error msg →
          (OAuth.registerClient store0 regEndpoint promptAnswer fetchRes).clientId
              = some "mcpeek-public-client"
          ∧ (OAuth.registerClient store0 regEndpoint
              promptAnswer fetchRes).networkAttempted = true) := by
  by_cases h0 : OAuth.strTruthy store0 = true
  · obtain ⟨s, hs, hsne⟩ : ∃ s, store0 = some s ∧ s ≠ "" := by
      cases store0 with
      | none => simp [OAuth.strTruthy] at h0
      | some s => exact ⟨s, rfl, by simpa [OAuth.strTruthy] using h0⟩
    subst hs
    refine ⟨?_, ?_, ?_, ?_, ?_, ?_⟩ <;>
      simp [OAuth.registerClient, OAuth.strTruthy, hsne]
  · have h0' : OAuth.strTruthy store0 = false := by
      simpa using h0
    have htp : OAuth.strTruthy (some "mcpeek-public-client") = true := by decide
    by_cases h1 : OAuth.strTruthy regEndpoint = true
    · cases fetchRes with
      | ok cid =>
        have hcid : cid ≠ "" := hok cid rfl
        have htr : OAuth.strTruthy (some cid) = true := by
          simp [OAuth.strTruthy, hcid]
        refine ⟨?_, ?_, ?_, ?_, ?_, ?_⟩ <;>
          simp [OAuth.registerClient, OAuth.attemptRegistration, h0', h1, htr]
      | notOk status =>
        refine ⟨?_, ?_, ?_, ?_, ?_, ?_⟩ <;>
          simp [OAuth.registerClient, OAuth.attemptRegistration, h0', h1, htp]
      | fetchError msg =>
        refine ⟨?_, ?_, ?_, ?_, ?_, ?_⟩ <;>
          simp [OAuth.registerClient, OAuth.attemptRegistration, h0', h1, htp]
    · have h1' : OAuth.strTruthy regEndpoint = false := by
        simpa using h1
      cases promptAnswer with
      | none =>
        refine ⟨?_, ?_, ?_, ?_, ?_, ?_⟩ <;>
          simp [OAuth.registerClient, h0', h1', htp]
      | some s =>
        by_cases hse : s = ""
        · subst hse
          refine ⟨?_, ?_, ?_, ?_, ?_, ?_⟩ <;>
            simp [OAuth.registerClient, h0', h1', htp]
        · have hts : OAuth.strTruthy (some s) = true := by
            simp [OAuth.strTruthy, hse]
          refine ⟨?_, ?_, ?_, ?_, ?_, ?_⟩ <;>
            simp [OAuth.registerClient, h0', h1', hse, hts]

/-- C10 witness: with nothing stored, a registration endpoint present
and the registration request answered with status 400, registerClient
still finishes with the public-client constant persisted. -/
theorem C10_register_never_fails_witness :
    (OAuth.registerClient none (some "https://as.example.com/register") none
        (.notOk 400)).clientId
      = some "mcpeek-public-client"
    ∧ (OAuth.registerClient none (some "https://as.example.com/register") none
        (.notOk 400)).store
      = (OAuth.registerClient none (some "https://as.example.com/register") none
          (.notOk 400)).clientId :=
  have h := C10_register_never_fails none (some "https://as.example.com/register")
    none (.notOk 400) (fun _ hcid => nomatch hcid)
  ⟨((h.2.2.2.2.2 rfl rfl) "Registration failed: 400" rfl).1, h.2.1⟩

end MCPeek
